import Mathlib

/-!
Shallow embedding of the incremental Spotify-to-spreadsheet sync engine:
the paginated walkers (`getNewSavedTracks`, `getAllMySavedTracks`), the
batched artist-genre enrichment (`getArtistsDetails` and the chunking loop
inside `updateLikedSongsSheet`), and the tabular sync writer
(`updateLikedSongsSheet`).  Remote fetches are modelled as a list of
responses the upstream would give to the successive cursor fetches; all
failure modes of the fetch layer (auth failure, 401, 429, parse error,
other HTTP errors) collapse to a null result in the source and are kept
as distinct constructors here so that error-propagation claims are
statable.
-/

/-- Artist object as used by the source: `id`, `name`, optional `genres`. -/
structure SpotifyArtist where
  id : String
  name : String
  genres : Option (List String)
deriving DecidableEq

/-- Album object: `name` and `release_date` string. -/
structure SpotifyAlbum where
  name : String
  release_date : String
deriving DecidableEq

/-- Track object: `id`, `name`, `artists`, `album`, external Spotify URL. -/
structure SpotifyTrack where
  id : String
  name : String
  artists : List SpotifyArtist
  album : SpotifyAlbum
  external_url : String
deriving DecidableEq

/-- Saved-track object: `added_at` timestamp plus the track. -/
structure SpotifySavedTrackObject where
  added_at : String
  track : SpotifyTrack
deriving DecidableEq

/-- One page of the saved-tracks listing: its items and whether a `next`
cursor is present (`next = true` means the upstream supplied a next-page
URL). -/
structure SavedTracksPage where
  items : List SpotifySavedTrackObject
  next : Bool
deriving DecidableEq

/-- Upstream response to one page fetch.  The source maps every non-`ok`
case to a `null` return from the walker: missing authorization
(`service.hasAccess()` false), HTTP 401, HTTP 429, JSON parse failure,
and any other non-200 status. -/
inductive FetchResponse where
  | ok (page : SavedTracksPage)
  | authFailure
  | unauthorized401
  | rateLimited429
  | parseError
  | httpError (code : Nat)
deriving DecidableEq

/-- `true` exactly on a successful page fetch. -/
def isOk : FetchResponse → Bool
  | .ok _ => true
  | _ => false

/-- Membership of an item's track id in the known-id set
(`existingTrackIds.has(item.track.id)`). -/
def isKnown (known : List String) (item : SpotifySavedTrackObject) : Bool :=
  known.contains item.track.id

/-- The inner `for (const item of pageData.items)` loop of
`getNewSavedTracks`: accumulates items until the first item whose id is
already known, and reports whether such an item was found
(`foundExistingTrack`). -/
def scanPageItems (known : List String) :
    List SpotifySavedTrackObject → List SpotifySavedTrackObject × Bool
  | [] => ([], false)
  | item :: rest =>
    if isKnown known item then ([], true)
    else
      let r := scanPageItems known rest
      (item :: r.1, r.2)

/-- `getNewSavedTracks` from `spotify-service.ts`: walk the cursor chain,
accumulate items not in `known`, stop at the first known item; any fetch
failure yields `none` (the source's `null`).  The argument list holds the
upstream's responses to the successive page fetches; an exhausted list
while a next cursor is still pending is treated as a failed fetch. -/
def getNewSavedTracks (known : List String) :
    List FetchResponse → Option (List SpotifySavedTrackObject)
  | [] => none
  | .ok page :: rest =>
    let r := scanPageItems known page.items
    if r.2 then some r.1
    else if page.next then
      match getNewSavedTracks known rest with
      | none => none
      | some more => some (r.1 ++ more)
    else some r.1
  | _ :: _ => none

/-- Number of page fetches `getNewSavedTracks` performs on the given
response sequence. -/
def pagesFetchedNew (known : List String) : List FetchResponse → Nat
  | [] => 0
  | .ok page :: rest =>
    let r := scanPageItems known page.items
    if r.2 then 1
    else if page.next then 1 + pagesFetchedNew known rest
    else 1
  | _ :: _ => 1

/-- `getAllMySavedTracks` from `spotify-service.ts`: walk the whole cursor
chain concatenating items; any fetch failure yields `none`. -/
def getAllMySavedTracks : List FetchResponse → Option (List SpotifySavedTrackObject)
  | [] => none
  | .ok page :: rest =>
    if page.next then
      match getAllMySavedTracks rest with
      | none => none
      | some more => some (page.items ++ more)
    else some page.items
  | _ :: _ => none

/-- All items of the successful pages of a response sequence, in arrival
order. -/
def flatItems : List FetchResponse → List SpotifySavedTrackObject
  | [] => []
  | .ok page :: rest => page.items ++ flatItems rest
  | _ :: rest => flatItems rest

/-- A response sequence that a healthy upstream produces for a complete
cursor walk: every fetch succeeds, every page but the last announces a
next cursor, and the last does not. -/
def wellFormedChain : List FetchResponse → Bool
  | [] => false
  | [.ok page] => !page.next
  | .ok page :: r :: rest => page.next && wellFormedChain (r :: rest)
  | _ => false

/-- The artist-details remote endpoint, abstracted: the response the
upstream gives to a `GET artists?ids=...` call with the given id list
(`none` models the `null` result of `fetchSpotifyApi` on any failure). -/
structure ArtistApi where
  fetchArtists : List String → Option (List SpotifyArtist)

/-- `getArtistsDetails` from `spotify-service.ts`: an empty id list short
circuits to an empty array with no remote call; more than 50 ids are
silently truncated to the first 50 before the single remote call. -/
def getArtistsDetails (api : ArtistApi) (ids : List String) :
    Option (List SpotifyArtist) :=
  if ids.isEmpty then some []
  else if ids.length > 50 then api.fetchArtists (ids.take 50)
  else api.fetchArtists ids

/-- The id list that `getArtistsDetails` actually sends upstream, if any:
`none` when no remote request is issued at all. -/
def getArtistsDetailsQuery (ids : List String) : Option (List String) :=
  if ids.isEmpty then none
  else if ids.length > 50 then some (ids.take 50)
  else some ids

/-- Fuel-indexed core of the chunking loop; the fuel only serves to make
the recursion structural and never runs out when it starts at the list's
length. -/
def chunkListGo : Nat → List String → List (List String)
  | _, [] => []
  | 0, _ :: _ => []
  | fuel + 1, a :: t => (a :: t).take 50 :: chunkListGo fuel ((a :: t).drop 50)

/-- The chunking loop of `updateLikedSongsSheet`
(`for (let i = 0; i < uniqueArtistIds.length; i += chunkSize)` with
`chunk = uniqueArtistIds.slice(i, i + chunkSize)`, `chunkSize = 50`). -/
def chunkList (l : List String) : List (List String) :=
  chunkListGo l.length l

/-- Fuel-indexed chunk-size computation mirroring `chunkListGo`. -/
def chunkLensGo : Nat → Nat → List Nat
  | _, 0 => []
  | 0, _ + 1 => []
  | fuel + 1, n + 1 => min 50 (n + 1) :: chunkLensGo fuel (n + 1 - 50)

/-- The chunk sizes produced by `chunkList`, as a function of the input
length alone. -/
def chunkLens (n : Nat) : List Nat :=
  chunkLensGo n n

/-- Lookup in the transient genre index (JS `Map.get`): first entry whose
key matches. -/
def getMapEntry : List (String × List String) → String → Option (List String)
  | [], _ => none
  | e :: rest, k => if e.1 = k then some e.2 else getMapEntry rest k

/-- JS `Map.set`: overwrite the value in place if the key exists, else
append a new entry. -/
def setMapEntry (m : List (String × List String)) (k : String)
    (v : List String) : List (String × List String) :=
  if m.any (fun e => e.1 = k) then
    m.map (fun e => if e.1 = k then (k, v) else e)
  else m ++ [(k, v)]

/-- One chunk's merge step
(`artistsDetails.forEach(artist => { if (artist && artist.id && artist.genres)
artistGenresMap.set(artist.id, artist.genres); })`); JS truthiness makes the
guard "id nonempty and genres field present". -/
def addArtistsToMap (m : List (String × List String)) :
    List SpotifyArtist → List (String × List String)
  | [] => m
  | a :: rest =>
    addArtistsToMap
      (if a.id ≠ "" then
        match a.genres with
        | some g => setMapEntry m a.id g
        | none => m
      else m) rest

/-- The full enrichment loop of `updateLikedSongsSheet`: one
`getArtistsDetails` call per chunk; a failed chunk (null result) is
skipped and its ids stay absent from the index. -/
def buildGenreMap (api : ArtistApi) (ids : List String) :
    List (String × List String) :=
  (chunkList ids).foldl
    (fun acc chunk =>
      match getArtistsDetails api chunk with
      | some artists => addArtistsToMap acc artists
      | none => acc) []

/-- JS `Set.add` semantics on an insertion-ordered list: append if not
already present. -/
def insertUnique (l : List String) (x : String) : List String :=
  if x ∈ l then l else l ++ [x]

/-- Collection of unique artist ids over the new tracks, in first-seen
order, skipping falsy (empty) ids — the `artistIds` set of
`updateLikedSongsSheet`. -/
def collectArtistIds (tracks : List SpotifySavedTrackObject) : List String :=
  tracks.foldl
    (fun acc item =>
      item.track.artists.foldl
        (fun acc2 a => if a.id = "" then acc2 else insertUnique acc2 a.id) acc)
    []

/-- The per-track genre collection of `updateLikedSongsSheet`: a JS `Set`
filled from each artist's resolved genre list in order, i.e. the
de-duplicated union in first-seen-artist-then-first-seen-genre order. -/
def renderTrackGenres (m : List (String × List String))
    (track : SpotifyTrack) : List String :=
  track.artists.foldl
    (fun acc a => ((getMapEntry m a.id).getD []).foldl insertUnique acc) []

/-- `array.join(', ')`. -/
def joinComma (l : List String) : String :=
  String.intercalate ", " l

/-- The fixed-width row rendered for one saved track. -/
def renderRow (m : List (String × List String))
    (item : SpotifySavedTrackObject) : List String :=
  [item.added_at,
   item.track.album.release_date,
   item.track.name,
   joinComma (item.track.artists.map (fun a => a.name)),
   item.track.album.name,
   item.track.id,
   joinComma (renderTrackGenres m item.track),
   item.track.external_url]

/-- A spreadsheet grid: the rows currently holding content, each a list
of cell strings. -/
abbrev Grid := List (List String)

/-- The fixed expected header schema. -/
def sheetHeader : List String :=
  ["Added At", "Release Date", "Track Name", "Artists", "Album Name",
   "Track ID", "Genres", "Track Link"]

/-- `header.indexOf('Track ID')` — computed against the fixed schema. -/
def trackIdColumnIndex : Nat :=
  sheetHeader.indexOf "Track ID"

/-- Reading one cell; a cell beyond the row's extent reads as empty
(falsy), like an out-of-range array access in JS. -/
def cellAt (row : List String) (i : Nat) : String :=
  (row.get? i).getD ""

/-- The key-column scan of `updateLikedSongsSheet`: when the grid has data
rows beyond the header, collect every truthy (nonempty) Track ID cell of
the data rows. -/
def existingIdsOfGrid (data : Grid) : List String :=
  if data.length > 1 then
    (data.drop 1).filterMap (fun row =>
      let c := cellAt row trackIdColumnIndex
      if c = "" then none else some c)
  else []

/-- Key-column scan lifted to a possibly-absent sheet. -/
def existingIdsOpt : Option Grid → List String
  | none => []
  | some data => existingIdsOfGrid data

/-- The Track ID column of the data rows, empties included. -/
def idColumnOfGrid (data : Grid) : List String :=
  (data.drop 1).map (fun row => cellAt row trackIdColumnIndex)

/-- `getRange(1,1,1,8).getValues()[0].join('') === ''`: the first row is
blank over the 8 header-wide cells. -/
def isBlankRow (row : List String) : Bool :=
  (List.range 8).all (fun i => cellAt row i == "")

/-- The sheet-state machine of `updateLikedSongsSheet`, run only when new
rows exist: Absent → create sheet and append header; zero rows → append
header; exactly one blank row → overwrite it with the header; otherwise
trust the existing grid. -/
def bootstrapGrid : Option Grid → Grid
  | none => [sheetHeader]
  | some data =>
    if data.length = 0 then [sheetHeader]
    else if data.length = 1 && isBlankRow (data.headD []) then [sheetHeader]
    else data

/-- `insertRowsAfter(1, n)` followed by `getRange(2, 1, n, 8).setValues`:
the new rows land as a contiguous block right after the first row. -/
def writeNewRows (grid : Grid) (rows : List (List String)) : Grid :=
  match grid with
  | [] => rows
  | h :: rest => h :: (rows ++ rest)

/-- Outcome of one sync run: the resulting sheet state (`none` = still
absent) and the number of data rows written. -/
structure SyncResult where
  sheet : Option Grid
  rowsWritten : Nat
deriving DecidableEq

/-- `updateLikedSongsSheet` from the main script: read the key column,
fetch only the new tracks, bail out unchanged on fetch error or when
nothing is new, otherwise enrich with genres and insert the rendered rows
right below the header. -/
def updateLikedSongsSheet (sheet : Option Grid) (rs : List FetchResponse)
    (api : ArtistApi) : SyncResult :=
  let known := existingIdsOpt sheet
  match getNewSavedTracks known rs with
  | none => ⟨sheet, 0⟩
  | some [] => ⟨sheet, 0⟩
  | some (t :: ts) =>
    let gmap := buildGenreMap api (collectArtistIds (t :: ts))
    let newData := (t :: ts).map (renderRow gmap)
    ⟨some (writeNewRows (bootstrapGrid sheet) newData), newData.length⟩

/-! Concrete fixtures used by the witness and counterexample theorems. -/

/-- A minimal saved-track object with the given timestamp and track id. -/
def mkItem (added i : String) : SpotifySavedTrackObject :=
  ⟨added, ⟨i, "", [], ⟨"", ""⟩, ""⟩⟩

/-- An artist-details endpoint that fails every request. -/
def failingApi : ArtistApi := ⟨fun _ => none⟩

/-- Boundary-scenario known ids: k1 and k2 are already recorded. -/
def c1Known : List String := ["k1", "k2"]

/-- Boundary-scenario upstream: items n1, n2, n3, k1 on the first page
(with a next cursor) and k2 alone on the second page. -/
def c1Page0 : SavedTracksPage :=
  ⟨[mkItem "t1" "n1", mkItem "t2" "n2", mkItem "t3" "n3", mkItem "t4" "k1"],
   true⟩

/-- Second page of the boundary scenario. -/
def c1Rs : List FetchResponse :=
  [.ok c1Page0, .ok ⟨[mkItem "t5" "k2"], false⟩]

/-- A pre-existing data row whose Track ID cell is "p". -/
def rowP : List String := ["", "", "", "", "", "p", "", ""]

/-- A populated starting sheet: header plus one data row for track p. -/
def sheetP : Option Grid := some [sheetHeader, rowP]

/-- Upstream for the first sync run: new items a and b, then the known
item p, on one final page. -/
def runRs1 : List FetchResponse :=
  [.ok ⟨[mkItem "t1" "a", mkItem "t2" "b", mkItem "t0" "p"], false⟩]

/-- Upstream for the second sync run: new items c and d on top of the
unchanged collection. -/
def runRs2 : List FetchResponse :=
  [.ok ⟨[mkItem "t3" "c", mkItem "t4" "d", mkItem "t1" "a", mkItem "t2" "b",
         mkItem "t0" "p"], false⟩]

/-- 120 distinct artist ids, for the chunking scenario. -/
def ids120 : List String := (List.range 120).map toString

/-- 101 distinct artist ids, which chunk as 50 + 50 + 1. -/
def ids101 : List String := (List.range 101).map toString

/-- First chunk of `ids101`. -/
def chunkA : List String := ids101.take 50

/-- Second chunk of `ids101`. -/
def chunkB : List String := (ids101.drop 50).take 50

/-- Third chunk of `ids101`. -/
def chunkC : List String := (ids101.drop 50).drop 50

/-- Response for the first chunk: artist "0" with one genre. -/
def respA : List SpotifyArtist := [⟨"0", "artist zero", some ["rock"]⟩]

/-- Response for the third chunk: artist "100" with one genre. -/
def respC : List SpotifyArtist := [⟨"100", "artist hundred", some ["pop"]⟩]

/-- An endpoint that fails exactly on the second chunk of `ids101` and
answers the other two chunks. -/
def apiFailB : ArtistApi :=
  ⟨fun c =>
    if c = chunkB then none
    else if c = chunkA then some respA
    else if c = chunkC then some respC
    else some []⟩

/-- 51 distinct artist ids, one over the per-request maximum. -/
def ids51 : List String := (List.range 51).map toString

/-- Genre index for the genre-union scenario: artist a1 has genre set
containing rock, artist a2 has rock and pop. -/
def gmapRockPop : List (String × List String) :=
  [("a1", ["rock"]), ("a2", ["rock", "pop"])]

/-- A track by artists a1 and a2, for the genre-union scenario. -/
def trackRockPop : SpotifyTrack :=
  ⟨"t", "T", [⟨"a1", "A1", none⟩, ⟨"a2", "A2", none⟩], ⟨"Al", "2020"⟩, "u"⟩

/-! Helper lemmas about the page scan and the cursor walk. -/

/-- `takeWhile` over an append stops inside the first part when some
element of it fails the predicate. -/
theorem takeWhile_append_stop {α : Type} (p : α → Bool) (l1 l2 : List α)
    (h : l1.any (fun a => !p a) = true) :
    (l1 ++ l2).takeWhile p = l1.takeWhile p := by
  induction l1 with
  | nil => simp at h
  | cons a t ih =>
    by_cases hpa : p a = true
    · simp only [hpa, Bool.not_true, List.any_cons, Bool.false_or] at h
      simp [List.takeWhile_cons, hpa, ih h]
    · simp [List.takeWhile_cons, Bool.eq_false_iff.mpr hpa]

/-- `takeWhile` over an append passes the whole first part when every
element of it satisfies the predicate. -/
theorem takeWhile_append_go {α : Type} (p : α → Bool) (l1 l2 : List α)
    (h : l1.all p = true) :
    (l1 ++ l2).takeWhile p = l1 ++ l2.takeWhile p := by
  induction l1 with
  | nil => simp
  | cons a t ih =>
    simp only [List.all_cons, Bool.and_eq_true] at h
    simp [List.takeWhile_cons, h.1, ih h.2]

/-- The page scan returns the items before the first known one, and
reports whether a known item occurred on the page. -/
theorem scanPageItems_eq (known : List String)
    (l : List SpotifySavedTrackObject) :
    scanPageItems known l =
      (l.takeWhile (fun it => !isKnown known it), l.any (isKnown known)) := by
  induction l with
  | nil => simp [scanPageItems]
  | cons item rest ih =>
    by_cases hik : isKnown known item = true
    · simp [scanPageItems, hik, List.takeWhile_cons]
    · simp [scanPageItems, Bool.eq_false_iff.mpr hik, List.takeWhile_cons, ih]

/-- On a well-formed response chain the boundary detector succeeds and
returns exactly the arrival-order prefix of items whose ids are not yet
known. -/
theorem getNewSavedTracks_wf (known : List String) (rs : List FetchResponse)
    (h : wellFormedChain rs = true) :
    getNewSavedTracks known rs =
      some ((flatItems rs).takeWhile (fun it => !isKnown known it)) := by
  induction rs with
  | nil => simp [wellFormedChain] at h
  | cons r rest ih =>
    cases r with
    | ok page =>
      cases rest with
      | nil =>
        simp only [wellFormedChain, List.isEmpty_nil, if_true] at h
        have hnext : page.next = false := by
          cases hpn : page.next <;> simp [hpn] at h ⊢
        by_cases hf : page.items.any (isKnown known) = true
        · simp [getNewSavedTracks, scanPageItems_eq, hf, flatItems]
        · simp [getNewSavedTracks, scanPageItems_eq, hf, hnext, flatItems]
      | cons r' rest' =>
        simp only [wellFormedChain, List.isEmpty_cons, if_false,
          Bool.and_eq_true] at h
        by_cases hf : page.items.any (isKnown known) = true
        · have hstop := takeWhile_append_stop
            (fun it => !isKnown known it) page.items (flatItems (r' :: rest'))
            (by simpa using hf)
          simp [getNewSavedTracks, scanPageItems_eq, hf, flatItems, hstop]
        · have hall : page.items.all (fun it => !isKnown known it) = true := by
            simp only [List.any_eq_true, not_exists] at hf
            simp only [List.all_eq_true, Bool.not_eq_true']
            intro it hit
            by_cases hk : isKnown known it = true
            · exact absurd ⟨hit, hk⟩ (hf it)
            · exact Bool.eq_false_iff.mpr hk
          have hgo := takeWhile_append_go
            (fun it => !isKnown known it) page.items (flatItems (r' :: rest'))
            hall
          have htw : page.items.takeWhile (fun it => !isKnown known it)
              = page.items := List.takeWhile_eq_self_iff.mpr
            (by intro x hx; exact (List.all_eq_true.mp hall) x hx)
          simp [getNewSavedTracks, scanPageItems_eq, hf, h.1, ih h.2,
            flatItems, hgo, htw]
    | authFailure => simp [wellFormedChain] at h
    | unauthorized401 => simp [wellFormedChain] at h
    | rateLimited429 => simp [wellFormedChain] at h
    | parseError => simp [wellFormedChain] at h
    | httpError code => simp [wellFormedChain] at h

/-- The walk never fetches past the page that contains a known item. -/
theorem pagesFetchedNew_le (known : List String) (rs : List FetchResponse) :
    ∀ j p, rs[j]? = some (FetchResponse.ok p) →
      p.items.any (isKnown known) = true →
      pagesFetchedNew known rs ≤ j + 1 := by
  induction rs with
  | nil => intro j p hj; simp at hj
  | cons r rest ih =>
    intro j p hj hp
    cases r with
    | ok page =>
      by_cases hf : page.items.any (isKnown known) = true
      · simp [pagesFetchedNew, scanPageItems_eq, hf]
      · cases hpn : page.next with
        | false => simp [pagesFetchedNew, scanPageItems_eq, hf, hpn]
        | true =>
          cases j with
          | zero =>
            simp only [List.getElem?_cons_zero, Option.some_inj] at hj
            cases hj
            exact absurd hp hf
          | succ j' =>
            simp only [List.getElem?_cons_succ] at hj
            have := ih j' p hj hp
            simp [pagesFetchedNew, scanPageItems_eq, hf, hpn]
            omega
    | authFailure => simp [pagesFetchedNew]
    | unauthorized401 => simp [pagesFetchedNew]
    | rateLimited429 => simp [pagesFetchedNew]
    | parseError => simp [pagesFetchedNew]
    | httpError code => simp [pagesFetchedNew]

/-- A non-null return of the boundary detector means every consumed
response succeeded and the walk ended at a page that either contained a
known item or carried no next cursor. -/
theorem getNewSavedTracks_some_normal (known : List String) :
    ∀ (rs : List FetchResponse) (l : List SpotifySavedTrackObject),
      getNewSavedTracks known rs = some l →
      ∃ n, n < rs.length ∧
        (∀ i, i ≤ n → ∀ r, rs[i]? = some r → isOk r = true) ∧
        ∃ p, rs[n]? = some (FetchResponse.ok p) ∧
          (p.items.any (isKnown known) = true ∨ p.next = false) := by
  intro rs
  induction rs with
  | nil => intro l hl; simp [getNewSavedTracks] at hl
  | cons r rest ih =>
    intro l hl
    cases r with
    | ok page =>
      by_cases hf : page.items.any (isKnown known) = true
      · refine ⟨0, by simp, ?_, page, by simp, Or.inl hf⟩
        intro i hi r hr
        interval_cases i
        simp only [List.getElem?_cons_zero, Option.some_inj] at hr
        subst hr; rfl
      · cases hpn : page.next with
        | false =>
          refine ⟨0, by simp, ?_, page, by simp, Or.inr hpn⟩
          intro i hi r hr
          interval_cases i
          simp only [List.getElem?_cons_zero, Option.some_inj] at hr
          subst hr; rfl
        | true =>
          cases hrest : getNewSavedTracks known rest with
          | none =>
            simp [getNewSavedTracks, scanPageItems_eq, hf, hpn, hrest] at hl
          | some more =>
            obtain ⟨n, hn, hpre, p, hp, hend⟩ := ih more hrest
            refine ⟨n + 1, by simpa using Nat.succ_lt_succ hn, ?_,
              p, by simpa using hp, hend⟩
            intro i hi r hr
            cases i with
            | zero =>
              simp only [List.getElem?_cons_zero, Option.some_inj] at hr
              subst hr; rfl
            | succ i' =>
              simp only [List.getElem?_cons_succ] at hr
              exact hpre i' (Nat.le_of_succ_le_succ hi) r hr
    | authFailure => simp [getNewSavedTracks] at hl
    | unauthorized401 => simp [getNewSavedTracks] at hl
    | rateLimited429 => simp [getNewSavedTracks] at hl
    | parseError => simp [getNewSavedTracks] at hl
    | httpError code => simp [getNewSavedTracks] at hl

/-- A non-null return of the full walker means every consumed response
succeeded and the walk ended at a page carrying no next cursor. -/
theorem getAllMySavedTracks_some_normal :
    ∀ (rs : List FetchResponse) (l : List SpotifySavedTrackObject),
      getAllMySavedTracks rs = some l →
      ∃ n, n < rs.length ∧
        (∀ i, i ≤ n → ∀ r, rs[i]? = some r → isOk r = true) ∧
        ∃ p, rs[n]? = some (FetchResponse.ok p) ∧ p.next = false := by
  intro rs
  induction rs with
  | nil => intro l hl; simp [getAllMySavedTracks] at hl
  | cons r rest ih =>
    intro l hl
    cases r with
    | ok page =>
      cases hpn : page.next with
      | false =>
        refine ⟨0, by simp, ?_, page, by simp, hpn⟩
        intro i hi r hr
        interval_cases i
        simp only [List.getElem?_cons_zero, Option.some_inj] at hr
        subst hr; rfl
      | true =>
        cases hrest : getAllMySavedTracks rest with
        | none => simp [getAllMySavedTracks, hpn, hrest] at hl
        | some more =>
          obtain ⟨n, hn, hpre, p, hp, hend⟩ := ih more hrest
          refine ⟨n + 1, by simpa using Nat.succ_lt_succ hn, ?_,
            p, by simpa using hp, hend⟩
          intro i hi r hr
          cases i with
          | zero =>
            simp only [List.getElem?_cons_zero, Option.some_inj] at hr
            subst hr; rfl
          | succ i' =>
            simp only [List.getElem?_cons_succ] at hr
            exact hpre i' (Nat.le_of_succ_le_succ hi) r hr
    | authFailure => simp [getAllMySavedTracks] at hl
    | unauthorized401 => simp [getAllMySavedTracks] at hl
    | rateLimited429 => simp [getAllMySavedTracks] at hl
    | parseError => simp [getAllMySavedTracks] at hl
    | httpError code => simp [getAllMySavedTracks] at hl

/-- A fetch failure reached by the boundary detector's walk makes the
whole call return null, never a truncated list. -/
theorem getNewSavedTracks_fail (known : List String) :
    ∀ (pre : List FetchResponse) (r : FetchResponse)
      (rest : List FetchResponse),
      (∀ q ∈ pre, ∃ p, q = FetchResponse.ok p ∧
        p.items.any (isKnown known) = false ∧ p.next = true) →
      isOk r = false →
      getNewSavedTracks known (pre ++ r :: rest) = none := by
  intro pre
  induction pre with
  | nil =>
    intro r rest _ hr
    cases r <;> simp [isOk] at hr ⊢ <;> simp [getNewSavedTracks]
  | cons q pre' ih =>
    intro r rest hq hr
    obtain ⟨p, hqe, hfa, hnx⟩ := hq q (List.mem_cons_self q pre')
    subst hqe
    have hrec := ih r rest (fun q' hq' => hq q' (List.mem_cons_of_mem _ hq')) hr
    simp [getNewSavedTracks, scanPageItems_eq, hfa, hnx, hrec]

/-- A fetch failure reached by the full walker makes the whole call
return null, never a truncated list. -/
theorem getAllMySavedTracks_fail :
    ∀ (pre : List FetchResponse) (r : FetchResponse)
      (rest : List FetchResponse),
      (∀ q ∈ pre, ∃ p, q = FetchResponse.ok p ∧ p.next = true) →
      isOk r = false →
      getAllMySavedTracks (pre ++ r :: rest) = none := by
  intro pre
  induction pre with
  | nil =>
    intro r rest _ hr
    cases r <;> simp [isOk] at hr ⊢ <;> simp [getAllMySavedTracks]
  | cons q pre' ih =>
    intro r rest hq hr
    obtain ⟨p, hqe, hnx⟩ := hq q (List.mem_cons_self q pre')
    subst hqe
    have hrec := ih r rest (fun q' hq' => hq q' (List.mem_cons_of_mem _ hq')) hr
    simp [getAllMySavedTracks, hnx, hrec]

/-- Claim C8: both paginated walkers distinguish abnormal from normal
termination by their return value — any per-page fetch failure
encountered by the walk yields null (no silently truncated list), and a
non-null return happens only when every consumed fetch succeeded and the
walk ended because the boundary was found or the upstream signalled no
more pages. -/
theorem walkers_null_on_error :
    (∀ (known : List String) (rs : List FetchResponse)
       (l : List SpotifySavedTrackObject),
       getNewSavedTracks known rs = some l →
       ∃ n, n < rs.length ∧
         (∀ i, i ≤ n → ∀ r, rs[i]? = some r → isOk r = true) ∧
         ∃ p, rs[n]? = some (FetchResponse.ok p) ∧
           (p.items.any (isKnown known) = true ∨ p.next = false)) ∧
    (∀ (rs : List FetchResponse) (l : List SpotifySavedTrackObject),
       getAllMySavedTracks rs = some l →
       ∃ n, n < rs.length ∧
         (∀ i, i ≤ n → ∀ r, rs[i]? = some r → isOk r = true) ∧
         ∃ p, rs[n]? = some (FetchResponse.ok p) ∧ p.next = false) ∧
    (∀ (known : List String) (pre : List FetchResponse) (r : FetchResponse)
       (rest : List FetchResponse),
       (∀ q ∈ pre, ∃ p, q = FetchResponse.ok p ∧
          p.items.any (isKnown known) = false ∧ p.next = true) →
       isOk r = false →
       getNewSavedTracks known (pre ++ r :: rest) = none) ∧
    (∀ (pre : List FetchResponse) (r : FetchResponse)
       (rest : List FetchResponse),
       (∀ q ∈ pre, ∃ p, q = FetchResponse.ok p ∧ p.next = true) →
       isOk r = false →
       getAllMySavedTracks (pre ++ r :: rest) = none) :=
  ⟨getNewSavedTracks_some_normal, getAllMySavedTracks_some_normal,
   getNewSavedTracks_fail, getAllMySavedTracks_fail⟩

/-- Witness for claim C8: a rate-limit failure on the first page makes
the boundary detector return null, and a parse error on the second page
makes the full walker return null even though the first page succeeded. -/
theorem walkers_null_on_error_witness :
    getNewSavedTracks [] [FetchResponse.rateLimited429] = none ∧
    getAllMySavedTracks
      [FetchResponse.ok ⟨[], true⟩, FetchResponse.parseError] = none := by
  constructor
  · exact walkers_null_on_error.2.2.1 [] [] FetchResponse.rateLimited429 []
      (by intro q hq; simp at hq) rfl
  · exact walkers_null_on_error.2.2.2 [FetchResponse.ok ⟨[], true⟩]
      FetchResponse.parseError []
      (by
        intro q hq
        simp only [List.mem_singleton] at hq
        subst hq
        exact ⟨⟨[], true⟩, rfl, rfl⟩) rfl

/-- Claim C1: on a well-formed upstream chain, `getNewSavedTracks` scans
items in arrival order, keeps exactly the prefix of items whose ids are
not in the known set (stopping at the first known item), and fetches no
page beyond the one containing a known item. -/
theorem boundary_detector_correct (known : List String)
    (rs : List FetchResponse) (h : wellFormedChain rs = true) :
    getNewSavedTracks known rs =
      some ((flatItems rs).takeWhile (fun it => !isKnown known it)) ∧
    ∀ j p, rs[j]? = some (FetchResponse.ok p) →
      p.items.any (isKnown known) = true →
      pagesFetchedNew known rs ≤ j + 1 :=
  ⟨getNewSavedTracks_wf known rs h, pagesFetchedNew_le known rs⟩

/-- Witness for claim C1: with known ids k1, k2 and upstream items
[n1, n2, n3, k1] then [k2], the detector returns exactly [n1, n2, n3]
and fetches only the first page. -/
theorem boundary_detector_correct_witness :
    getNewSavedTracks c1Known c1Rs =
      some [mkItem "t1" "n1", mkItem "t2" "n2", mkItem "t3" "n3"] ∧
    pagesFetchedNew c1Known c1Rs = 1 := by
  have h := boundary_detector_correct c1Known c1Rs (by decide)
  refine ⟨?_, ?_⟩
  · rw [h.1]; decide
  · have hle := h.2 0 c1Page0 (by decide) (by decide)
    have hge : 1 ≤ pagesFetchedNew c1Known c1Rs := by decide
    omega

/-! Chunking lemmas for the enrichment resolver. -/

/-- With enough fuel the chunks concatenate back to the input. -/
theorem chunkListGo_flatten :
    ∀ (fuel : Nat) (l : List String), l.length ≤ fuel →
      (chunkListGo fuel l).flatten = l := by
  intro fuel
  induction fuel with
  | zero =>
    intro l hl
    have : l = [] := List.length_eq_zero.mp (Nat.le_zero.mp hl)
    subst this
    rfl
  | succ f ih =>
    intro l hl
    cases l with
    | nil => rfl
    | cons a t =>
      rw [chunkListGo, List.flatten_cons, ih]
      · exact List.take_append_drop 50 (a :: t)
      · simp only [List.length_drop, List.length_cons] at *
        omega

/-- The chunks concatenate back to the original id list. -/
theorem chunkList_flatten (l : List String) : (chunkList l).flatten = l :=
  chunkListGo_flatten l.length l (Nat.le_refl _)

/-- Every chunk the loop produces is nonempty and holds at most 50 ids. -/
theorem chunkListGo_mem :
    ∀ (fuel : Nat) (l : List String), ∀ c ∈ chunkListGo fuel l,
      c.length ≤ 50 ∧ c ≠ [] := by
  intro fuel
  induction fuel with
  | zero =>
    intro l c hc
    cases l with
    | nil => simp [chunkListGo] at hc
    | cons a t => simp [chunkListGo] at hc
  | succ f ih =>
    intro l c hc
    cases l with
    | nil => simp [chunkListGo] at hc
    | cons a t =>
      rw [chunkListGo] at hc
      rcases List.mem_cons.mp hc with hc | hc
      · subst hc
        constructor
        · simp [List.length_take]
        · simp
      · exact ih _ c hc

/-- Every chunk is nonempty and holds at most 50 ids. -/
theorem chunkList_mem (l : List String) :
    ∀ c ∈ chunkList l, c.length ≤ 50 ∧ c ≠ [] :=
  chunkListGo_mem l.length l

/-- The chunk sizes depend only on the input length. -/
theorem chunkListGo_map_length :
    ∀ (fuel : Nat) (l : List String),
      (chunkListGo fuel l).map List.length = chunkLensGo fuel l.length := by
  intro fuel
  induction fuel with
  | zero =>
    intro l
    cases l with
    | nil => rfl
    | cons a t => rfl
  | succ f ih =>
    intro l
    cases l with
    | nil => rfl
    | cons a t =>
      rw [chunkListGo, List.length_cons, chunkLensGo]
      simp only [List.map_cons, List.length_take, List.length_cons, ih,
        List.length_drop]

/-- The chunk sizes depend only on the input length. -/
theorem chunkList_map_length (l : List String) :
    (chunkList l).map List.length = chunkLens l.length := by
  rw [chunkList, chunkListGo_map_length, chunkLens]

/-- Claim C6: the enrichment step partitions the unique artist-id list
into consecutive chunks of at most 50 ids, each of which is sent as one
untruncated lookup; the chunks are pairwise disjoint and cover all ids,
and 120 unique ids give exactly 3 lookups of sizes 50, 50 and 20. -/
theorem enrichment_chunking_correct (ids : List String) (h : ids.Nodup) :
    (∀ c ∈ chunkList ids,
       c.length ≤ 50 ∧ c ≠ [] ∧ getArtistsDetailsQuery c = some c) ∧
    (chunkList ids).flatten = ids ∧
    List.Pairwise List.Disjoint (chunkList ids) ∧
    (ids.length = 120 → (chunkList ids).map List.length = [50, 50, 20]) := by
  refine ⟨?_, chunkList_flatten ids, ?_, ?_⟩
  · intro c hc
    obtain ⟨hlen, hne⟩ := chunkList_mem ids c hc
    refine ⟨hlen, hne, ?_⟩
    have hemp : c.isEmpty = false := by
      cases c with
      | nil => exact absurd rfl hne
      | cons x t => rfl
    simp [getArtistsDetailsQuery, hemp]
    omega
  · have hnod : (chunkList ids).flatten.Nodup := by
      rw [chunkList_flatten]; exact h
    exact (List.nodup_flatten.mp hnod).2
  · intro h120
    rw [chunkList_map_length, h120]
    decide

set_option maxRecDepth 20000 in
/-- Witness for claim C6: 120 distinct artist ids chunk into exactly 3
lookups of sizes 50, 50 and 20, which together cover the whole list. -/
theorem enrichment_chunking_correct_witness :
    (chunkList ids120).map List.length = [50, 50, 20] ∧
    (chunkList ids120).flatten = ids120 := by
  have h := enrichment_chunking_correct ids120 (by decide)
  exact ⟨h.2.2.2 (by decide), h.2.1⟩

/-- Claim C10: `getArtistsDetails` on an empty id list returns the empty
array (not null) issuing no remote request, and on a list longer than 50
it queries exactly the first 50 ids — the rest are dropped from that
call, not queried. -/
theorem getArtistsDetails_edge (api : ArtistApi) (ids : List String) :
    (ids = [] →
       getArtistsDetails api ids = some [] ∧
       getArtistsDetailsQuery ids = none) ∧
    (50 < ids.length →
       getArtistsDetails api ids = api.fetchArtists (ids.take 50) ∧
       getArtistsDetailsQuery ids = some (ids.take 50) ∧
       (ids.take 50).length = 50) := by
  constructor
  · intro h
    subst h
    exact ⟨rfl, rfl⟩
  · intro h
    have hemp : ids.isEmpty = false := by
      cases ids with
      | nil => simp at h
      | cons x t => rfl
    refine ⟨?_, ?_, ?_⟩
    · simp [getArtistsDetails, hemp]
      omega
    · simp [getArtistsDetailsQuery, hemp]
    · simp [List.length_take]
      omega

/-- Witness for claim C10: an empty list yields the empty array with no
query, and 51 ids query exactly their first 50. -/
theorem getArtistsDetails_edge_witness :
    getArtistsDetails failingApi [] = some [] ∧
    getArtistsDetailsQuery ids51 = some (ids51.take 50) := by
  constructor
  · exact ((getArtistsDetails_edge failingApi []).1 rfl).1
  · exact ((getArtistsDetails_edge failingApi ids51).2 (by decide)).2.1

/-! Lemmas about JS-set insertion order, for the genre union. -/

/-- Membership after one insertion. -/
theorem mem_insertUnique (l : List String) (x y : String) :
    y ∈ insertUnique l x ↔ y ∈ l ∨ y = x := by
  by_cases hx : x ∈ l
  · simp only [insertUnique, if_pos hx]
    constructor
    · exact Or.inl
    · rintro (h | rfl)
      · exact h
      · exact hx
  · simp [insertUnique, hx]

/-- Insertion preserves freedom from duplicates. -/
theorem insertUnique_nodup (l : List String) (x : String) (h : l.Nodup) :
    (insertUnique l x).Nodup := by
  by_cases hx : x ∈ l
  · simpa [insertUnique, hx] using h
  · rw [insertUnique, if_neg hx, List.nodup_append_comm]
    simp [h, hx]

/-- Filling a duplicate-free accumulator keeps it duplicate-free. -/
theorem foldl_insertUnique_nodup :
    ∀ (l acc : List String), acc.Nodup → (l.foldl insertUnique acc).Nodup := by
  intro l
  induction l with
  | nil => intro acc h; exact h
  | cons x t ih =>
    intro acc h
    exact ih (insertUnique acc x) (insertUnique_nodup acc x h)

/-- The filled accumulator holds exactly the union of the accumulator and
the inserted elements. -/
theorem foldl_insertUnique_mem :
    ∀ (l acc : List String) (y : String),
      y ∈ l.foldl insertUnique acc ↔ y ∈ acc ∨ y ∈ l := by
  intro l
  induction l with
  | nil => intro acc y; simp
  | cons x t ih =>
    intro acc y
    rw [List.foldl_cons, ih, mem_insertUnique, List.mem_cons]
    tauto

/-- The filled accumulator is the accumulator followed by a subsequence of
the inserted list: first occurrences survive in order. -/
theorem foldl_insertUnique_split :
    ∀ (l acc : List String),
      ∃ l', l.foldl insertUnique acc = acc ++ l' ∧ l'.Sublist l := by
  intro l
  induction l with
  | nil => intro acc; exact ⟨[], by simp, List.nil_sublist []⟩
  | cons x t ih =>
    intro acc
    by_cases hx : x ∈ acc
    · obtain ⟨l', heq, hsub⟩ := ih acc
      refine ⟨l', ?_, hsub.cons x⟩
      rw [List.foldl_cons, insertUnique, if_pos hx, heq]
    · obtain ⟨l', heq, hsub⟩ := ih (acc ++ [x])
      refine ⟨x :: l', ?_, hsub.cons₂ x⟩
      rw [List.foldl_cons, insertUnique, if_neg hx, heq, List.append_assoc,
        List.singleton_append]

/-- Folding set insertions artist-by-artist equals folding them over the
flattened genre stream. -/
theorem foldl_insertUnique_flatMap (g : SpotifyArtist → List String) :
    ∀ (arts : List SpotifyArtist) (acc : List String),
      arts.foldl (fun acc2 a => (g a).foldl insertUnique acc2) acc
        = (arts.flatMap g).foldl insertUnique acc := by
  intro arts
  induction arts with
  | nil => intro acc; rfl
  | cons a t ih =>
    intro acc
    rw [List.foldl_cons, ih, List.flatMap_cons, List.foldl_append]

/-- The per-track genre cell as a single fold over the artist-ordered
genre stream. -/
theorem renderTrackGenres_eq (m : List (String × List String))
    (track : SpotifyTrack) :
    renderTrackGenres m track =
      (track.artists.flatMap
        (fun a => (getMapEntry m a.id).getD [])).foldl insertUnique [] :=
  foldl_insertUnique_flatMap _ track.artists []

/-- Claim C9: the rendered genre field of a track is the de-duplicated
union of its artists' resolved genre sets, in
first-seen-artist-then-first-seen-genre order; artists with genre sets
containing rock and rock-pop render exactly rock then pop. -/
theorem genre_union_rendering :
    (∀ (m : List (String × List String)) (track : SpotifyTrack),
       (renderTrackGenres m track).Nodup ∧
       (∀ g, g ∈ renderTrackGenres m track ↔
          ∃ a ∈ track.artists, g ∈ (getMapEntry m a.id).getD []) ∧
       (renderTrackGenres m track).Sublist
         (track.artists.flatMap (fun a => (getMapEntry m a.id).getD []))) ∧
    renderTrackGenres gmapRockPop trackRockPop = ["rock", "pop"] := by
  refine ⟨?_, by decide⟩
  intro m track
  have he := renderTrackGenres_eq m track
  refine ⟨?_, ?_, ?_⟩
  · rw [he]
    exact foldl_insertUnique_nodup _ _ List.nodup_nil
  · intro g
    rw [he, foldl_insertUnique_mem]
    simp [List.mem_flatMap]
  · rw [he]
    obtain ⟨l', heq, hsub⟩ := foldl_insertUnique_split
      (track.artists.flatMap (fun a => (getMapEntry m a.id).getD [])) []
    rw [heq]
    simpa using hsub

/-! Lemmas about the sync writer. -/

/-- `isKnown` as plain membership. -/
theorem isKnown_iff (known : List String) (it : SpotifySavedTrackObject) :
    isKnown known it = true ↔ it.track.id ∈ known :=
  ⟨List.mem_of_elem_eq_true, List.elem_eq_true_of_mem⟩

/-- The Track ID column of the fixed schema is column 5. -/
theorem trackIdColumnIndex_eq : trackIdColumnIndex = 5 := by decide

/-- A rendered row carries its track's id in the Track ID column. -/
theorem cellAt_renderRow (m : List (String × List String))
    (item : SpotifySavedTrackObject) :
    cellAt (renderRow m item) trackIdColumnIndex = item.track.id := rfl

/-- A failed fetch leaves the sync untouched. -/
theorem updateLikedSongsSheet_none (s : Option Grid) (rs : List FetchResponse)
    (api : ArtistApi) (h : getNewSavedTracks (existingIdsOpt s) rs = none) :
    updateLikedSongsSheet s rs api = ⟨s, 0⟩ := by
  rw [updateLikedSongsSheet]
  rw [h]

/-- An empty new-item set leaves the sync untouched. -/
theorem updateLikedSongsSheet_nil (s : Option Grid) (rs : List FetchResponse)
    (api : ArtistApi) (h : getNewSavedTracks (existingIdsOpt s) rs = some []) :
    updateLikedSongsSheet s rs api = ⟨s, 0⟩ := by
  rw [updateLikedSongsSheet]
  rw [h]

/-- A nonempty new-item set writes the rendered rows right below the
(bootstrapped) header. -/
theorem updateLikedSongsSheet_cons (s : Option Grid) (rs : List FetchResponse)
    (api : ArtistApi) (t : SpotifySavedTrackObject)
    (ts : List SpotifySavedTrackObject)
    (h : getNewSavedTracks (existingIdsOpt s) rs = some (t :: ts)) :
    updateLikedSongsSheet s rs api =
      ⟨some (writeNewRows (bootstrapGrid s)
        ((t :: ts).map
          (renderRow (buildGenreMap api (collectArtistIds (t :: ts)))))),
       ts.length + 1⟩ := by
  rw [updateLikedSongsSheet]
  rw [h]
  simp

/-- The bootstrapped grid always has a first row. -/
theorem bootstrapGrid_ne_nil (s : Option Grid) : bootstrapGrid s ≠ [] := by
  cases s with
  | none => simp [bootstrapGrid]
  | some data =>
    rw [bootstrapGrid]
    by_cases h0 : data.length = 0
    · simp [h0]
    · rw [if_neg h0]
      by_cases h1 : (data.length = 1 && isBlankRow (data.headD [])) = true
      · rw [if_pos h1]
        simp
      · rw [if_neg h1]
        intro hnil
        subst hnil
        exact h0 rfl

/-- The id written at the head of the new block is found by the next
run's key-column scan. -/
theorem head_id_mem_existingIds (m : List (String × List String))
    (t : SpotifySavedTrackObject) (ts : List SpotifySavedTrackObject)
    (g0h : List String) (g0t : Grid) (hid : t.track.id ≠ "") :
    t.track.id ∈
      existingIdsOfGrid (g0h :: ((t :: ts).map (renderRow m) ++ g0t)) := by
  rw [existingIdsOfGrid, if_pos (by simp)]
  simp only [List.drop_succ_cons, List.drop_zero, List.map_cons,
    List.cons_append, List.filterMap_cons, cellAt_renderRow]
  rw [if_neg hid]
  exact List.mem_cons_self _ _

/-- Claim C2: running the sync twice on an unchanged upstream collection
is idempotent — the second run finds zero new tracks and leaves the sheet
exactly as the first run left it. -/
theorem resync_idempotent (s : Option Grid) (rs : List FetchResponse)
    (api api2 : ArtistApi) (h1 : wellFormedChain rs = true)
    (h2 : ∀ it ∈ flatItems rs, it.track.id ≠ "") :
    getNewSavedTracks
      (existingIdsOpt (updateLikedSongsSheet s rs api).sheet) rs = some [] ∧
    updateLikedSongsSheet (updateLikedSongsSheet s rs api).sheet rs api2 =
      ⟨(updateLikedSongsSheet s rs api).sheet, 0⟩ := by
  have hrun := getNewSavedTracks_wf (existingIdsOpt s) rs h1
  cases hL : (flatItems rs).takeWhile
      (fun it => !isKnown (existingIdsOpt s) it) with
  | nil =>
    rw [hL] at hrun
    have hupd := updateLikedSongsSheet_nil s rs api hrun
    rw [hupd]
    exact ⟨hrun, updateLikedSongsSheet_nil s rs api2 hrun⟩
  | cons t ts =>
    rw [hL] at hrun
    have hupd := updateLikedSongsSheet_cons s rs api t ts hrun
    cases hfl : flatItems rs with
    | nil => rw [hfl] at hL; simp at hL
    | cons y ys =>
      rw [hfl, List.takeWhile_cons] at hL
      by_cases hpy : (!isKnown (existingIdsOpt s) y) = true
      · rw [if_pos hpy] at hL
        have hty : y = t := (List.cons.injEq _ _ _ _ ▸ hL).1
        subst hty
        have hidy : y.track.id ≠ "" := h2 y (hfl ▸ List.mem_cons_self y ys)
        rw [hupd]
        cases hg0 : bootstrapGrid s with
        | nil => exact absurd hg0 (bootstrapGrid_ne_nil s)
        | cons g0h g0t =>
          have hmem : y.track.id ∈ existingIdsOfGrid
              (g0h :: ((y :: ts).map (renderRow
                (buildGenreMap api (collectArtistIds (y :: ts)))) ++ g0t)) :=
            head_id_mem_existingIds _ y ts g0h g0t hidy
          have hknown2 : isKnown (existingIdsOfGrid
              (g0h :: ((y :: ts).map (renderRow
                (buildGenreMap api (collectArtistIds (y :: ts)))) ++ g0t)))
              y = true := (isKnown_iff _ y).mpr hmem
          have hsecond : getNewSavedTracks (existingIdsOfGrid
              (g0h :: ((y :: ts).map (renderRow
                (buildGenreMap api (collectArtistIds (y :: ts)))) ++ g0t)))
              rs = some [] := by
            rw [getNewSavedTracks_wf _ rs h1, hfl, List.takeWhile_cons,
              hknown2]
            simp
          simp only [writeNewRows, hg0, existingIdsOpt] at *
          exact ⟨hsecond, updateLikedSongsSheet_nil _ rs api2 hsecond⟩
      · rw [if_neg hpy] at hL
        exact absurd hL.symm (List.cons_ne_nil t ts)

/-- Witness for claim C2: a populated sheet synced against the same
three-item upstream twice — the second run finds nothing new and changes
nothing. -/
theorem resync_idempotent_witness :
    getNewSavedTracks
      (existingIdsOpt (updateLikedSongsSheet sheetP runRs1 failingApi).sheet)
      runRs1 = some [] ∧
    updateLikedSongsSheet (updateLikedSongsSheet sheetP runRs1 failingApi).sheet
      runRs1 failingApi =
      ⟨(updateLikedSongsSheet sheetP runRs1 failingApi).sheet, 0⟩ :=
  resync_idempotent sheetP runRs1 failingApi failingApi (by decide)
    (by decide)

/-- The Track ID column after writing a block of rendered rows: the new
tracks' ids followed by the old data rows' id cells. -/
theorem idColumn_write (g0h : List String) (g0t : Grid)
    (m : List (String × List String)) (l : List SpotifySavedTrackObject) :
    idColumnOfGrid (g0h :: (l.map (renderRow m) ++ g0t)) =
      l.map (fun it => it.track.id) ++
        g0t.map (fun row => cellAt row trackIdColumnIndex) := by
  rw [idColumnOfGrid]
  simp [List.map_map, Function.comp_def, cellAt_renderRow]

/-- A nonempty id cell of a data row is picked up by the key-column
scan. -/
theorem mem_existingIds_of_idColumn (data : Grid) (x : String)
    (hx : x ∈ idColumnOfGrid data) (hne : x ≠ "") (hlen : 1 < data.length) :
    x ∈ existingIdsOfGrid data := by
  rw [existingIdsOfGrid, if_pos hlen]
  rw [idColumnOfGrid] at hx
  obtain ⟨row, hrow, hcell⟩ := List.mem_map.mp hx
  refine List.mem_filterMap.mpr ⟨row, hrow, ?_⟩
  simp only
  rw [hcell, if_neg hne]

/-- Claim C3: the boundary detector never re-adds an id that is already
in the pre-existing key set, the ids within one run's item set are
distinct whenever the upstream stream has distinct ids, and after a sync
the store's Track ID column holds no duplicates. -/
theorem track_id_unique_after_sync (s : Option Grid)
    (rs : List FetchResponse) (api : ArtistApi)
    (h1 : wellFormedChain rs = true)
    (h2 : ((flatItems rs).map (fun it => it.track.id)).Nodup)
    (h3 : ∀ it ∈ flatItems rs, it.track.id ≠ "")
    (h4 : ∀ data, s = some data → (idColumnOfGrid data).Nodup) :
    (∀ l, getNewSavedTracks (existingIdsOpt s) rs = some l →
       (∀ it ∈ l, isKnown (existingIdsOpt s) it = false) ∧
       (l.map (fun it => it.track.id)).Nodup) ∧
    (∀ data', (updateLikedSongsSheet s rs api).sheet = some data' →
       (idColumnOfGrid data').Nodup) := by
  have hrun := getNewSavedTracks_wf (existingIdsOpt s) rs h1
  have hpart1 : ∀ l, getNewSavedTracks (existingIdsOpt s) rs = some l →
      (∀ it ∈ l, isKnown (existingIdsOpt s) it = false) ∧
      (l.map (fun it => it.track.id)).Nodup := by
    intro l hl
    rw [hrun, Option.some_inj] at hl
    subst hl
    constructor
    · intro it hit
      have hp := List.mem_takeWhile_imp hit
      simpa using hp
    · have hsub : ((flatItems rs).takeWhile
          (fun it => !isKnown (existingIdsOpt s) it)).Sublist (flatItems rs) :=
        (List.takeWhile_prefix _).sublist
      exact h2.sublist (hsub.map (fun it => it.track.id))
  refine ⟨hpart1, ?_⟩
  intro data' hd'
  cases hL : (flatItems rs).takeWhile
      (fun it => !isKnown (existingIdsOpt s) it) with
  | nil =>
    rw [hL] at hrun
    rw [updateLikedSongsSheet_nil s rs api hrun] at hd'
    cases s with
    | none => simp at hd'
    | some data =>
      simp only [Option.some_inj] at hd'
      subst hd'
      exact h4 data rfl
  | cons t ts =>
    rw [hL] at hrun
    rw [updateLikedSongsSheet_cons s rs api t ts hrun] at hd'
    simp only [Option.some_inj] at hd'
    subst hd'
    have hsubl : (t :: ts).Sublist (flatItems rs) :=
      hL ▸ (List.takeWhile_prefix _).sublist
    have hnew : ((t :: ts).map (fun it => it.track.id)).Nodup :=
      h2.sublist (hsubl.map (fun it => it.track.id))
    have hnotk : ∀ it ∈ t :: ts, isKnown (existingIdsOpt s) it = false :=
      (hpart1 (t :: ts) hrun).1
    have hne : ∀ it ∈ t :: ts, it.track.id ≠ "" :=
      fun it hit => h3 it (hsubl.mem hit)
    cases s with
    | none =>
      rw [show bootstrapGrid none = [sheetHeader] from rfl, writeNewRows,
        idColumn_write]
      simpa using hnew
    | some data =>
      by_cases h0 : data.length = 0
      · rw [show bootstrapGrid (some data) = [sheetHeader] by
          rw [bootstrapGrid, if_pos h0], writeNewRows, idColumn_write]
        simpa using hnew
      · by_cases hb : (data.length = 1 && isBlankRow (data.headD [])) = true
        · rw [show bootstrapGrid (some data) = [sheetHeader] by
            rw [bootstrapGrid, if_neg h0, if_pos hb], writeNewRows,
            idColumn_write]
          simpa using hnew
        · have hgd : bootstrapGrid (some data) = data := by
            rw [bootstrapGrid, if_neg h0, if_neg hb]
          rw [hgd]
          cases data with
          | nil => exact absurd rfl h0
          | cons d0 dt =>
            rw [writeNewRows, idColumn_write]
            cases dt with
            | nil => simpa using hnew
            | cons d1 dt' =>
              rw [List.nodup_append]
              refine ⟨hnew, ?_, ?_⟩
              · have : idColumnOfGrid (d0 :: d1 :: dt') =
                    (d1 :: dt').map
                      (fun row => cellAt row trackIdColumnIndex) := by
                  rw [idColumnOfGrid]
                  simp
                exact this ▸ h4 (d0 :: d1 :: dt') rfl
              · intro x hxnew hxold
                obtain ⟨it, hit, hx⟩ := List.mem_map.mp hxnew
                have hxid : x ∈ idColumnOfGrid (d0 :: d1 :: dt') := by
                  rw [idColumnOfGrid]
                  simpa using hxold
                have hxex : x ∈ existingIdsOfGrid (d0 :: d1 :: dt') :=
                  mem_existingIds_of_idColumn _ x hxid
                    (hx ▸ hne it hit) (by simp)
                have := hnotk it hit
                rw [← hx] at hxex
                have hmem := (isKnown_iff (existingIdsOpt
                    (some (d0 :: d1 :: dt'))) it).mpr hxex
                rw [this] at hmem
                exact Bool.false_ne_true hmem

/-- Witness for claim C3: the populated example sheet synced against the
a-b-p upstream keeps its Track ID column duplicate-free. -/
theorem track_id_unique_after_sync_witness :
    (∀ l, getNewSavedTracks (existingIdsOpt sheetP) runRs1 = some l →
       (∀ it ∈ l, isKnown (existingIdsOpt sheetP) it = false) ∧
       (l.map (fun it => it.track.id)).Nodup) ∧
    (∀ data', (updateLikedSongsSheet sheetP runRs1 failingApi).sheet
        = some data' → (idColumnOfGrid data').Nodup) :=
  track_id_unique_after_sync sheetP runRs1 failingApi (by decide) (by decide)
    (by decide) (by decide)

/-- Claim C4: a sync run on a populated sheet inserts its rendered rows
as one contiguous block immediately after the header row, never after the
existing rows, so two successive runs adding a-b then c-d leave the order
header, c, d, a, b, pre-existing. -/
theorem new_rows_inserted_after_header :
    (∀ (h0 r0 : List String) (rest : Grid) (rs : List FetchResponse)
       (api : ArtistApi) (t : SpotifySavedTrackObject)
       (ts : List SpotifySavedTrackObject),
       getNewSavedTracks (existingIdsOfGrid (h0 :: r0 :: rest)) rs =
         some (t :: ts) →
       updateLikedSongsSheet (some (h0 :: r0 :: rest)) rs api =
         ⟨some (h0 :: ((t :: ts).map (renderRow
            (buildGenreMap api (collectArtistIds (t :: ts)))) ++
            (r0 :: rest))),
          ts.length + 1⟩) ∧
    (updateLikedSongsSheet
        (updateLikedSongsSheet sheetP runRs1 failingApi).sheet
        runRs2 failingApi).sheet =
      some [sheetHeader,
        ["t3", "", "", "", "", "c", "", ""],
        ["t4", "", "", "", "", "d", "", ""],
        ["t1", "", "", "", "", "a", "", ""],
        ["t2", "", "", "", "", "b", "", ""],
        rowP] := by
  constructor
  · intro h0 r0 rest rs api t ts h
    rw [updateLikedSongsSheet_cons (some (h0 :: r0 :: rest)) rs api t ts h]
    rw [show bootstrapGrid (some (h0 :: r0 :: rest)) = h0 :: r0 :: rest by
      rw [bootstrapGrid, if_neg (by simp), if_neg (by simp)]]
    rfl
  · decide

/-- Witness for claim C4: the populated example sheet gains rows for a
and b directly below the header, above the pre-existing p row. -/
theorem new_rows_inserted_after_header_witness :
    updateLikedSongsSheet (some [sheetHeader, rowP]) runRs1 failingApi =
      ⟨some [sheetHeader,
        ["t1", "", "", "", "", "a", "", ""],
        ["t2", "", "", "", "", "b", "", ""],
        rowP], 2⟩ := by
  have h := new_rows_inserted_after_header.1 sheetHeader rowP [] runRs1
    failingApi (mkItem "t1" "a") [mkItem "t2" "b"] (by decide)
  rw [h]
  decide

/-- Counterexample for claim C5: with the sheet absent and an upstream
holding no items at all, the new-item set is empty and the sync exits
before the bootstrap — no sheet is created and no header is written,
contradicting the claimed Absent/Empty exception. -/
theorem empty_new_set_bootstrap_cex :
    getNewSavedTracks (existingIdsOpt none) [FetchResponse.ok ⟨[], false⟩]
      = some [] ∧
    updateLikedSongsSheet none [FetchResponse.ok ⟨[], false⟩] failingApi
      = ⟨none, 0⟩ := by decide

/-- Claim C5 (amended): whenever the boundary detector returns an empty
new-item set, the sync leaves the store completely untouched in every
state — Absent, Empty and Populated alike; the bootstrap creation and
header write happen only on runs with at least one new item. -/
theorem empty_new_set_leaves_store_untouched (s : Option Grid)
    (rs : List FetchResponse) (api : ArtistApi)
    (h : getNewSavedTracks (existingIdsOpt s) rs = some []) :
    updateLikedSongsSheet s rs api = ⟨s, 0⟩ :=
  updateLikedSongsSheet_nil s rs api h

/-- Witness for claim C5 (amended): a populated sheet whose first
upstream item is already recorded is left exactly as it was. -/
theorem empty_new_set_leaves_store_untouched_witness :
    updateLikedSongsSheet sheetP
      [FetchResponse.ok ⟨[mkItem "t0" "p"], false⟩] failingApi =
      ⟨sheetP, 0⟩ :=
  empty_new_set_leaves_store_untouched sheetP
    [FetchResponse.ok ⟨[mkItem "t0" "p"], false⟩] failingApi (by decide)

/-! Lemmas about the genre-index construction, for the partial-failure
claim. -/

/-- A chunk produced by the loop is sent to the endpoint as-is. -/
theorem getArtistsDetails_of_chunk (api : ArtistApi) (c : List String)
    (hne : c ≠ []) (hlen : c.length ≤ 50) :
    getArtistsDetails api c = api.fetchArtists c := by
  have hemp : c.isEmpty = false := by
    cases c with
    | nil => exact absurd rfl hne
    | cons x t => rfl
  rw [getArtistsDetails, hemp]
  simp only [Bool.false_eq_true, if_false]
  rw [if_neg (by omega)]

/-- Overwriting the entries of one key leaves lookups of other keys
unchanged. -/
theorem getMapEntry_map_setKey (m : List (String × List String))
    (k k' : String) (v : List String) (hne : k' ≠ k) :
    getMapEntry (m.map (fun e => if e.1 = k then (k, v) else e)) k' =
      getMapEntry m k' := by
  induction m with
  | nil => rfl
  | cons e rest ih =>
    by_cases he : e.1 = k
    · have hek : ¬ e.1 = k' := fun h' => hne (h'.symm.trans he)
      have hkk : ¬ k = k' := fun h' => hne h'.symm
      simp only [List.map_cons, if_pos he, getMapEntry, if_neg hek,
        if_neg hkk]
      exact ih
    · simp only [List.map_cons, if_neg he, getMapEntry, ih]

/-- Overwriting the entries of a present key makes its lookup return the
new value. -/
theorem getMapEntry_map_found (m : List (String × List String))
    (k : String) (v : List String)
    (hany : m.any (fun e => e.1 = k) = true) :
    getMapEntry (m.map (fun e => if e.1 = k then (k, v) else e)) k =
      some v := by
  induction m with
  | nil => simp at hany
  | cons e rest ih =>
    by_cases he : e.1 = k
    · simp [List.map_cons, if_pos he, getMapEntry]
    · simp only [List.any_cons, Bool.or_eq_true, decide_eq_true_eq] at hany
      rcases hany with hany | hany
      · exact absurd hany he
      · simp only [List.map_cons, if_neg he, getMapEntry, if_neg he]
        exact ih hany

/-- Appending a fresh entry makes its key's lookup find it. -/
theorem getMapEntry_append_single_same (m : List (String × List String))
    (k : String) (v : List String)
    (h : m.any (fun e => e.1 = k) = false) :
    getMapEntry (m ++ [(k, v)]) k = some v := by
  induction m with
  | nil => simp [getMapEntry]
  | cons e rest ih =>
    simp only [List.any_cons, Bool.or_eq_false_iff, decide_eq_false_iff_not]
      at h
    simp only [List.cons_append, getMapEntry, if_neg h.1]
    exact ih h.2

/-- Appending an entry leaves lookups of other keys unchanged. -/
theorem getMapEntry_append_single_ne (m : List (String × List String))
    (k k' : String) (v : List String) (hne : k' ≠ k) :
    getMapEntry (m ++ [(k, v)]) k' = getMapEntry m k' := by
  induction m with
  | nil =>
    simp only [List.nil_append, getMapEntry]
    rw [if_neg (fun hk => hne hk.symm)]
  | cons e rest ih =>
    by_cases hek : e.1 = k'
    · simp [List.cons_append, getMapEntry, hek]
    · simp [List.cons_append, getMapEntry, hek, ih]

/-- `Map.set` makes the set key's lookup return the new value. -/
theorem getMapEntry_setMapEntry_same (m : List (String × List String))
    (k : String) (v : List String) :
    getMapEntry (setMapEntry m k v) k = some v := by
  rw [setMapEntry]
  by_cases hany : m.any (fun e => e.1 = k) = true
  · rw [if_pos hany]
    exact getMapEntry_map_found m k v hany
  · rw [if_neg hany]
    exact getMapEntry_append_single_same m k v (Bool.eq_false_iff.mpr hany)

/-- `Map.set` leaves other keys' lookups unchanged. -/
theorem getMapEntry_setMapEntry_ne (m : List (String × List String))
    (k k' : String) (v : List String) (hne : k' ≠ k) :
    getMapEntry (setMapEntry m k v) k' = getMapEntry m k' := by
  rw [setMapEntry]
  by_cases hany : m.any (fun e => e.1 = k) = true
  · rw [if_pos hany]
    exact getMapEntry_map_setKey m k k' v hne
  · rw [if_neg hany]
    exact getMapEntry_append_single_ne m k k' v hne

/-- Merging a response none of whose artists carry the key leaves the
key's lookup unchanged. -/
theorem getMapEntry_addArtists_not (arts : List SpotifyArtist) :
    ∀ (m : List (String × List String)) (k : String),
      (∀ a ∈ arts, a.id ≠ k) →
      getMapEntry (addArtistsToMap m arts) k = getMapEntry m k := by
  induction arts with
  | nil => intro m k _; rfl
  | cons a rest ih =>
    intro m k h
    rw [addArtistsToMap]
    rw [ih _ k (fun b hb => h b (List.mem_cons_of_mem a hb))]
    by_cases hid : a.id ≠ ""
    · rw [if_pos hid]
      cases hg : a.genres with
      | none => rfl
      | some g =>
        exact getMapEntry_setMapEntry_ne m a.id k g
          (fun hk => h a (List.mem_cons_self a rest) hk.symm)
    · rw [if_neg hid]

/-- Merging a response with pairwise-distinct artist ids records each
artist's genres under its id. -/
theorem getMapEntry_addArtists_mem (arts : List SpotifyArtist) :
    ∀ (m : List (String × List String)) (a : SpotifyArtist)
      (g : List String), a ∈ arts → a.id ≠ "" → a.genres = some g →
      ((arts.map (fun x => x.id)).Nodup) →
      getMapEntry (addArtistsToMap m arts) a.id = some g := by
  induction arts with
  | nil => intro m a g hmem; simp at hmem
  | cons x rest ih =>
    intro m a g hmem hid hg hnd
    simp only [List.map_cons, List.nodup_cons, List.mem_map] at hnd
    rcases List.mem_cons.mp hmem with rfl | hmem'
    · rw [addArtistsToMap, if_pos hid, hg]
      have hrest : ∀ b ∈ rest, b.id ≠ a.id :=
        fun b hb hbk => hnd.1 ⟨b, hb, hbk⟩
      rw [getMapEntry_addArtists_not rest _ a.id hrest]
      exact getMapEntry_setMapEntry_same m a.id g
    · rw [addArtistsToMap]
      exact ih _ a g hmem' hid hg hnd.2

/-- A track all of whose artists miss the genre index renders an empty
genre list. -/
theorem renderTrackGenres_none (m : List (String × List String))
    (track : SpotifyTrack)
    (h : ∀ a ∈ track.artists, getMapEntry m a.id = none) :
    renderTrackGenres m track = [] := by
  rw [renderTrackGenres]
  have : ∀ (arts : List SpotifyArtist) (acc : List String),
      (∀ a ∈ arts, getMapEntry m a.id = none) →
      arts.foldl
        (fun acc2 a => ((getMapEntry m a.id).getD []).foldl insertUnique acc2)
        acc = acc := by
    intro arts
    induction arts with
    | nil => intro acc _; rfl
    | cons a rest ih =>
      intro acc hall
      rw [List.foldl_cons, hall a (List.mem_cons_self a rest)]
      exact ih acc (fun b hb => hall b (List.mem_cons_of_mem a hb))
  exact this track.artists [] h

/-- Claim C7: a failed genre-lookup chunk does not abort the run — when
the second of three chunks fails, its ids are absent from the genre
index, artists answered in the first and third chunks keep their genre
data, tracks referencing only second-chunk artists render an empty genre
list, and the sync still writes every new row. -/
theorem partial_enrichment_resilient (ids c1 c2 c3 : List String)
    (api : ArtistApi) (r1 r3 : List SpotifyArtist)
    (hch : chunkList ids = [c1, c2, c3])
    (hnd : ids.Nodup)
    (h1 : api.fetchArtists c1 = some r1)
    (h2 : api.fetchArtists c2 = none)
    (h3 : api.fetchArtists c3 = some r3)
    (hr1 : ∀ a ∈ r1, a.id ∈ c1)
    (hr3 : ∀ a ∈ r3, a.id ∈ c3)
    (hnd1 : (r1.map (fun a => a.id)).Nodup)
    (hnd3 : (r3.map (fun a => a.id)).Nodup) :
    (∀ k ∈ c2, getMapEntry (buildGenreMap api ids) k = none) ∧
    (∀ a ∈ r1, a.id ≠ "" → ∀ g, a.genres = some g →
       getMapEntry (buildGenreMap api ids) a.id = some g) ∧
    (∀ a ∈ r3, a.id ≠ "" → ∀ g, a.genres = some g →
       getMapEntry (buildGenreMap api ids) a.id = some g) ∧
    (∀ track : SpotifyTrack, (∀ a ∈ track.artists, a.id ∈ c2) →
       renderTrackGenres (buildGenreMap api ids) track = []) ∧
    (∀ (s : Option Grid) (rs : List FetchResponse)
       (t : SpotifySavedTrackObject) (ts : List SpotifySavedTrackObject),
       getNewSavedTracks (existingIdsOpt s) rs = some (t :: ts) →
       (updateLikedSongsSheet s rs api).rowsWritten = (t :: ts).length) := by
  obtain ⟨hl1, hne1⟩ := chunkList_mem ids c1 (by rw [hch]; simp)
  obtain ⟨hl2, hne2⟩ := chunkList_mem ids c2 (by rw [hch]; simp)
  obtain ⟨hl3, hne3⟩ := chunkList_mem ids c3 (by rw [hch]; simp)
  have hb : buildGenreMap api ids =
      addArtistsToMap (addArtistsToMap [] r1) r3 := by
    rw [buildGenreMap, hch]
    simp only [List.foldl_cons, List.foldl_nil,
      getArtistsDetails_of_chunk api c1 hne1 hl1,
      getArtistsDetails_of_chunk api c2 hne2 hl2,
      getArtistsDetails_of_chunk api c3 hne3 hl3, h1, h2, h3]
  have hndf : ([c1, c2, c3].flatten).Nodup := by
    rw [show [c1, c2, c3].flatten = ids by
      rw [← hch]; exact chunkList_flatten ids]
    exact hnd
  simp only [List.flatten_cons, List.flatten_nil, List.append_nil] at hndf
  obtain ⟨hn1, hrest, hd1⟩ := List.nodup_append.mp hndf
  obtain ⟨hn2, hn3, hd23⟩ := List.nodup_append.mp hrest
  have hi : ∀ k ∈ c2, getMapEntry (buildGenreMap api ids) k = none := by
    intro k hk
    rw [hb]
    rw [getMapEntry_addArtists_not r3 _ k
      (fun a ha hak => hd23 hk (hak ▸ hr3 a ha))]
    rw [getMapEntry_addArtists_not r1 _ k
      (fun a ha hak => hd1 (hak ▸ hr1 a ha) (List.mem_append_left c3 hk))]
    rfl
  refine ⟨hi, ?_, ?_, ?_, ?_⟩
  · intro a ha hid g hg
    rw [hb]
    rw [getMapEntry_addArtists_not r3 _ a.id
      (fun b hb3 hbk => hd1 (hr1 a ha)
        (List.mem_append_right c2 (hbk ▸ hr3 b hb3)))]
    exact getMapEntry_addArtists_mem r1 [] a g ha hid hg hnd1
  · intro a ha hid g hg
    rw [hb]
    exact getMapEntry_addArtists_mem r3 _ a g ha hid hg hnd3
  · intro track hta
    exact renderTrackGenres_none _ track
      (fun a ha => hi a.id (hta a ha))
  · intro s rs t ts h
    rw [updateLikedSongsSheet_cons s rs api t ts h]
    simp

set_option maxRecDepth 40000 in
/-- Witness for claim C7: 101 unique ids chunk as 50-50-1; the failing
middle chunk's id 50 is absent from the index, while artists 0 and 100
from the healthy chunks keep their genres, and a run with one new track
still writes its row. -/
theorem partial_enrichment_resilient_witness :
    getMapEntry (buildGenreMap apiFailB ids101) "50" = none ∧
    getMapEntry (buildGenreMap apiFailB ids101) "0" = some ["rock"] ∧
    getMapEntry (buildGenreMap apiFailB ids101) "100" = some ["pop"] ∧
    (updateLikedSongsSheet none
        [FetchResponse.ok ⟨[mkItem "t9" "z"], false⟩]
        apiFailB).rowsWritten = 1 := by
  have h := partial_enrichment_resilient ids101 chunkA chunkB chunkC
    apiFailB respA respC (by decide) (by decide) (by decide) (by decide)
    (by decide) (by decide) (by decide) (by decide) (by decide)
  refine ⟨h.1 "50" (by decide), ?_, ?_, ?_⟩
  · exact h.2.1 ⟨"0", "artist zero", some ["rock"]⟩ (by decide) (by decide)
      ["rock"] rfl
  · exact h.2.2.1 ⟨"100", "artist hundred", some ["pop"]⟩ (by decide)
      (by decide) ["pop"] rfl
  · exact h.2.2.2.2 none [FetchResponse.ok ⟨[mkItem "t9" "z"], false⟩]
      (mkItem "t9" "z") [] (by decide)
